import Mathlib

/-!
Shallow embedding of the two vector modules of the swarm-simulator
repository (`src/sarsim/vectors.py` and `src/swarm/vectors.py`).

A numpy 1-D array of floats is modelled as a `List ℝ`.  The numpy
functions the source calls are modelled in the `Np` namespace; NaN
produced by `np.arccos` outside `[-1, 1]` is modelled as `Option.none`.
Each Python module becomes a Lean namespace whose definitions mirror
the corresponding methods of its `Vector` class.
-/

noncomputable section

open scoped Classical

/-- A numpy 1-D float array, as used for vectors in the source. -/
abbrev Vec := List ℝ

namespace Np

/-- Sum of squares of the entries (helper for the 2-norm). -/
def sumSq (v : Vec) : ℝ := (v.map (fun t => t ^ 2)).sum

/-- `np.linalg.norm(v)`: the Euclidean 2-norm. -/
noncomputable def norm (v : Vec) : ℝ := Real.sqrt (sumSq v)

/-- `np.dot(u, v)`: sum of pairwise products. -/
def dot (u v : Vec) : ℝ := (List.zipWith (fun a b => a * b) u v).sum

/-- `np.zeros(n)`. -/
def zeros (n : ℕ) : Vec := List.replicate n 0

/-- `np.zeros_like(v)`: zeros of the same shape. -/
def zeros_like (v : Vec) : Vec := List.replicate v.length 0

/-- `np.arccos(x)`; `none` models the NaN produced when `x` lies
outside `[-1, 1]`. -/
noncomputable def arccos (t : ℝ) : Option ℝ :=
  if -1 ≤ t ∧ t ≤ 1 then some (Real.arccos t) else none

/-- `np.arctan2(y, x)`: the angle of the point `(x, y)` in `(-π, π]`.
Real numbers have no signed zero, so `arctan2 0 0 = 0` covers numpy's
`(±0, ±0)` cases with the unsigned zero result. -/
noncomputable def arctan2 (y x : ℝ) : ℝ :=
  if 0 < x then Real.arctan (y / x)
  else if x < 0 then
    (if 0 ≤ y then Real.arctan (y / x) + Real.pi
     else Real.arctan (y / x) - Real.pi)
  else
    (if 0 < y then Real.pi / 2
     else if y < 0 then -(Real.pi / 2)
     else 0)

/-- `np.degrees(x)`: radians to degrees. -/
noncomputable def degrees (t : ℝ) : ℝ := t * 180 / Real.pi

/-- `np.isclose(a, b)` with numpy's default tolerances
`rtol = 1e-5`, `atol = 1e-8`. -/
def isclose (a b : ℝ) : Prop := |a - b| ≤ 1e-8 + 1e-5 * |b|

/-- `np.allclose(u, v)` on same-shape 1-D arrays: every pair of
corresponding entries is close.  (Numpy broadcasting of unequal
shapes is not used by the source on unequal-length data.) -/
def allclose (u v : Vec) : Prop := List.Forall₂ isclose u v

/-- Elementwise subtraction `u - v`, exact for same-shape operands —
the only case this development evaluates; numpy's broadcasting of
length-1 operands and its `ValueError` on other mismatched shapes are
not modelled. -/
def sub (u v : Vec) : Vec := List.zipWith (fun a b => a - b) u v

/-- Scalar division `v / c`, elementwise. -/
def divs (v : Vec) (c : ℝ) : Vec := v.map (fun a => a / c)

end Np

/-! ## `src/sarsim/vectors.py` -/

namespace sarsim

/-- `Vector.arr(array)`: `array.view(klass)` — a typed view of the
given array, with no validation of any kind. -/
def arr (array : Vec) : Vec := array

/-- `Vector.zero()`: `arr(np.zeros(2))`. -/
def zero : Vec := arr (Np.zeros 2)

/-- `Vector.arrp(*coords)`: `arr(np.array(coords))` — one component
per argument supplied. -/
def arrp (coords : List ℝ) : Vec := arr coords

/-- `Vector.rand(low, high)`: `arr(np.random.randint(low, high, size=2))`.
The two integers drawn by the RNG are passed in explicitly as `sample`;
`low` and `high` bound the draw but do not affect the shape. -/
def rand (low : ℤ) (high : Option ℤ) (sample : ℤ × ℤ) : Vec :=
  arr [(sample.1 : ℝ), (sample.2 : ℝ)]

/-- The `length` property: `np.linalg.norm(self)`. -/
noncomputable def length (self : Vec) : ℝ := Np.norm self

/-- The `unit` property: `self / self.length` when `self.length > 0`,
else `np.zeros_like(self)`. -/
noncomputable def unit (self : Vec) : Vec :=
  if 0 < length self then Np.divs self (length self) else Np.zeros_like self

/-- The `orthogonal` property: `b = np.empty_like(u); b[0] = -u[1];
b[1] = u[0]`.  `empty_like` is modelled as zeros of the same shape,
and Python indexing/assignment at 0 and 1 as `getD`/`set`.  The model
is exact on 2-element inputs — the only ones this development
evaluates it on, where every slot is written; on shorter inputs the
program raises `IndexError`, which is not modelled. -/
noncomputable def orthogonal (self : Vec) : Vec :=
  let u := unit self
  let b := Np.zeros_like u
  (b.set 0 (-(u.getD 1 0))).set 1 (u.getD 0 0)

/-- `angle(self, other, degrees=True)`: `arccos(dot(self.unit, other.unit))`;
on NaN, `0` when `(self.unit == other.unit).all()` (plain ndarray
equality: exact elementwise) else `π`; converted to degrees when
`degrees` is true. -/
noncomputable def angle (self other : Vec) (degrees : Bool) : ℝ :=
  let a :=
    match Np.arccos (Np.dot (unit self) (unit other)) with
    | none => if unit self = unit other then (0 : ℝ) else Real.pi
    | some t => t
  if degrees then Np.degrees a else a

/-- `distance(self, other)`: `np.linalg.norm(self - other)`. -/
noncomputable def distance (self other : Vec) : ℝ := Np.norm (Np.sub self other)

end sarsim

/-! ## `src/swarm/vectors.py` -/

namespace swarm

/-- `Vector.arr(array)`: `array.view(klass)` — a typed view of the
given array, with no validation of any kind. -/
def arr (array : Vec) : Vec := array

/-- `Vector.zero()`: `arr(np.zeros(2))`. -/
def zero : Vec := arr (Np.zeros 2)

/-- `Vector.arrp(*coords)`: `arr(np.array(coords))` — one component
per argument supplied. -/
def arrp (coords : List ℝ) : Vec := arr coords

/-- `Vector.rand(low, high)`: `arr(np.random.randint(low, high, size=2))`.
The two integers drawn by the RNG are passed in explicitly as `sample`. -/
def rand (low : ℤ) (high : Option ℤ) (sample : ℤ × ℤ) : Vec :=
  arr [(sample.1 : ℝ), (sample.2 : ℝ)]

/-- The `x` property: `self[0]`, modelled as `getD 0 0` (agrees with
Python indexing whenever the vector is nonempty). -/
def x (self : Vec) : ℝ := self.getD 0 0

/-- The `y` property: `self[1]`, modelled as `getD 1 0` (agrees with
Python indexing whenever the vector has at least two entries). -/
def y (self : Vec) : ℝ := self.getD 1 0

/-- The `length` property: `np.linalg.norm(self)`. -/
noncomputable def length (self : Vec) : ℝ := Np.norm self

/-- The `unit` property: `self / self.length` when `self.length > 0`,
else `np.zeros_like(self)`. -/
noncomputable def unit (self : Vec) : Vec :=
  if 0 < length self then Np.divs self (length self) else Np.zeros_like self

/-- The `orthogonal` property: `b = np.empty_like(u); b[0] = -u[1];
b[1] = u[0]`, modelled as in `sarsim.orthogonal` (exact on 2-element
inputs; the `IndexError` on shorter inputs is not modelled). -/
noncomputable def orthogonal (self : Vec) : Vec :=
  let u := unit self
  let b := Np.zeros_like u
  (b.set 0 (-(u.getD 1 0))).set 1 (u.getD 0 0)

/-- `angle(self, other, degrees=True)`: `arccos(dot(self.unit, other.unit))`;
on NaN, `0` when `(self.unit == other.unit).all()` — here `==` is this
class's overloaded `__eq__`, i.e. `np.allclose` — else `π`; converted
to degrees when `degrees` is true. -/
noncomputable def angle (self other : Vec) (degrees : Bool) : ℝ :=
  let a :=
    match Np.arccos (Np.dot (unit self) (unit other)) with
    | none => if Np.allclose (unit self) (unit other) then (0 : ℝ) else Real.pi
    | some t => t
  if degrees then Np.degrees a else a

/-- `heading(self, degrees=True)`: `self.angle(Vector.arrp(1, 0), degrees)`. -/
noncomputable def heading (self : Vec) (degrees : Bool) : ℝ :=
  angle self (arrp [1, 0]) degrees

/-- `relative_heading(self, other, heading=None, degrees=True)`:
`delta = other - self`; `angle = np.arctan2(-delta.y, delta.x)`;
`angle += heading` when `heading` is given; converted to degrees when
`degrees` is true. -/
noncomputable def relative_heading (self other : Vec) (heading : Option ℝ)
    (degrees : Bool) : ℝ :=
  let delta := Np.sub other self
  let a := Np.arctan2 (-(y delta)) (x delta)
  let a := match heading with | none => a | some h => a + h
  if degrees then Np.degrees a else a

/-- `distance(self, other)`: `np.linalg.norm(self - other)`. -/
noncomputable def distance (self other : Vec) : ℝ := Np.norm (Np.sub self other)

/-- `__eq__(self, other)`: `np.allclose(self, other)`. -/
def eq (self other : Vec) : Prop := Np.allclose self other

/-- `__ne__(self, other)`: `not self == other`. -/
def ne (self other : Vec) : Prop := ¬ eq self other

end swarm

/-! ## Helper lemmas -/

theorem Np.sumSq_nil : Np.sumSq [] = 0 := rfl

theorem Np.sumSq_cons (a : ℝ) (t : Vec) : Np.sumSq (a :: t) = a ^ 2 + Np.sumSq t := by
  simp [Np.sumSq]

theorem Np.sumSq_nonneg (v : Vec) : 0 ≤ Np.sumSq v := by
  induction v with
  | nil => simp [Np.sumSq]
  | cons a t ih => rw [Np.sumSq_cons]; positivity

theorem Np.sumSq_divs (v : Vec) (c : ℝ) :
    Np.sumSq (Np.divs v c) = Np.sumSq v / c ^ 2 := by
  induction v with
  | nil => simp [Np.sumSq, Np.divs]
  | cons a t ih =>
      simp only [Np.divs, List.map_cons] at ih ⊢
      rw [Np.sumSq_cons, Np.sumSq_cons, ih, div_pow]
      ring

theorem Np.sumSq_zeros_like (v : Vec) : Np.sumSq (Np.zeros_like v) = 0 := by
  simp [Np.sumSq, Np.zeros_like, List.map_replicate]

theorem Np.norm_nonneg (v : Vec) : 0 ≤ Np.norm v := Real.sqrt_nonneg _

/-- `swarm.length` is the square root of the sum of squares. -/
theorem swarm.length_def (v : Vec) : swarm.length v = Real.sqrt (Np.sumSq v) := rfl

/-- A non-positive length is zero. -/
theorem swarm.length_eq_zero_of_not_pos (v : Vec) (h : ¬ 0 < swarm.length v) :
    swarm.length v = 0 :=
  le_antisymm (not_lt.1 h) (Np.norm_nonneg v)

/-- On a positive-length vector, `unit` divides componentwise by the length. -/
theorem swarm.unit_of_pos (v : Vec) (h : 0 < swarm.length v) :
    swarm.unit v = Np.divs v (swarm.length v) := by
  simp [swarm.unit, h]

/-- On a zero-length vector, `unit` is the all-zeros vector of the same shape. -/
theorem swarm.unit_of_not_pos (v : Vec) (h : ¬ 0 < swarm.length v) :
    swarm.unit v = Np.zeros_like v := by
  simp [swarm.unit, h]

/-- When the length is positive, the sum of squares equals the squared length. -/
theorem swarm.sumSq_eq_sq_length (v : Vec) :
    Np.sumSq v = swarm.length v ^ 2 := by
  rw [swarm.length_def, Real.sq_sqrt (Np.sumSq_nonneg v)]

/-- The unit vector has sum of squares at most one. -/
theorem swarm.sumSq_unit_le_one (v : Vec) : Np.sumSq (swarm.unit v) ≤ 1 := by
  by_cases h : 0 < swarm.length v
  · rw [swarm.unit_of_pos v h, Np.sumSq_divs, swarm.sumSq_eq_sq_length v,
      div_self (by positivity)]
  · rw [swarm.unit_of_not_pos v h, Np.sumSq_zeros_like]
    norm_num

/-- A positive-length vector normalizes to an exact unit vector. -/
theorem swarm.length_unit_of_pos (v : Vec) (h : 0 < swarm.length v) :
    swarm.length (swarm.unit v) = 1 := by
  rw [swarm.unit_of_pos v h, swarm.length_def, Np.sumSq_divs,
    swarm.sumSq_eq_sq_length v, div_self (by positivity), Real.sqrt_one]

/-- `unit` preserves the number of components. -/
theorem swarm.length_unit_eq (v : Vec) : (swarm.unit v).length = v.length := by
  by_cases h : 0 < swarm.length v
  · rw [swarm.unit_of_pos v h]; simp [Np.divs]
  · rw [swarm.unit_of_not_pos v h]; simp [Np.zeros_like]

/-- When the dot product of the two unit vectors lies in `[-1, 1]`,
`angle` is the (possibly degree-converted) arccosine of it. -/
theorem swarm.angle_eval (self other : Vec) (d : Bool)
    (h1 : -1 ≤ Np.dot (swarm.unit self) (swarm.unit other))
    (h2 : Np.dot (swarm.unit self) (swarm.unit other) ≤ 1) :
    swarm.angle self other d =
      if d then
        Np.degrees (Real.arccos (Np.dot (swarm.unit self) (swarm.unit other)))
      else Real.arccos (Np.dot (swarm.unit self) (swarm.unit other)) := by
  simp [swarm.angle, Np.arccos, h1, h2]

/-- Converting the right angle to degrees gives 90. -/
theorem Np.degrees_arccos_zero : Np.degrees (Real.arccos 0) = 90 := by
  rw [Real.arccos_zero, Np.degrees]
  field_simp
  ring

/-! ## C1 -/

/-- C1 counterexample: the claim says constructing from the 3-element
array `[1, 2, 3]` raises `InvalidShapeError`; in the code `arr` is a
bare `array.view(klass)` with no validation, so the construction
succeeds and yields a 3-element vector. -/
theorem c1_counterexample :
    swarm.arr [1, 2, 3] = [1, 2, 3] ∧ (swarm.arr [1, 2, 3]).length = 3 :=
  ⟨rfl, rfl⟩

/-- C1 (amended): `arr` performs no input validation and never fails:
for every input array it returns a view with the same elements and the
same number of elements; in particular `arr [1,2,3]` succeeds with a
3-element result, and no `InvalidShapeError` exists in the code. -/
theorem c1_arr_no_validation (a : Vec) :
    swarm.arr a = a ∧ (swarm.arr a).length = a.length :=
  ⟨rfl, rfl⟩

/-! ## C2 -/

/-- C2 counterexample: the claim says every constructor yields exactly
2 components, but `arrp` called with three coordinates yields a
3-component vector. -/
theorem c2_counterexample :
    (swarm.arrp [1, 2, 3]).length = 3 ∧ ¬ (swarm.arrp [1, 2, 3]).length = 2 := by
  exact ⟨rfl, by decide⟩

/-- C2 (amended): `zero` and `rand` always produce exactly 2
components, while `arr` and `arrp` produce exactly as many components
as they are given (so 2 only for 2-element input); `unit` returns as
many components as its input, and on 2-element vectors `orthogonal`
and elementwise subtraction also return 2-element vectors. -/
theorem c2_shapes (low : ℤ) (high : Option ℤ) (sample : ℤ × ℤ) (a v : Vec) :
    swarm.zero.length = 2 ∧ (swarm.rand low high sample).length = 2 ∧
    (swarm.arr a).length = a.length ∧ (swarm.arrp a).length = a.length ∧
    (swarm.unit v).length = v.length ∧
    (v.length = 2 → (swarm.orthogonal v).length = 2) ∧
    (∀ u w : Vec, u.length = 2 → w.length = 2 → (Np.sub u w).length = 2) := by
  refine ⟨rfl, rfl, rfl, rfl, ?_, ?_, ?_⟩
  · by_cases h : 0 < swarm.length v
    · rw [swarm.unit_of_pos v h]; simp [Np.divs]
    · rw [swarm.unit_of_not_pos v h]; simp [Np.zeros_like]
  · intro hv
    have hu : (swarm.unit v).length = v.length := by
      by_cases h : 0 < swarm.length v
      · rw [swarm.unit_of_pos v h]; simp [Np.divs]
      · rw [swarm.unit_of_not_pos v h]; simp [Np.zeros_like]
    simp [swarm.orthogonal, Np.zeros_like, hu, hv]
  · intro u w hu hw
    simp [Np.sub, hu, hw]

/-- Witness for C2 (amended) at the concrete 2-element vectors `[1, 2]`
and `[3, 4]`. -/
theorem c2_shapes_witness :
    (swarm.orthogonal [1, 2]).length = 2 ∧ (Np.sub [3, 4] [1, 2]).length = 2 :=
  ⟨(c2_shapes 0 none (0, 0) [] [1, 2]).2.2.2.2.2.1 rfl,
   (c2_shapes 0 none (0, 0) [] [1, 2]).2.2.2.2.2.2 [3, 4] [1, 2] rfl rfl⟩

/-! ## C4 -/

/-- C4: for a vector of positive length, `unit` is the vector divided
componentwise by its length, and the result has length exactly 1 (hence
approximately 1); for a vector of length 0, `unit` returns the all-zero
vector of the same shape — for a 2-element vector, the zero vector
`(0, 0)` — and no division is attempted. -/
theorem c4_unit (v : Vec) :
    (0 < swarm.length v →
      swarm.unit v = Np.divs v (swarm.length v) ∧
      swarm.length (swarm.unit v) = 1) ∧
    (swarm.length v = 0 →
      swarm.unit v = Np.zeros_like v ∧
      (v.length = 2 → swarm.unit v = swarm.zero)) := by
  constructor
  · intro h
    exact ⟨swarm.unit_of_pos v h, swarm.length_unit_of_pos v h⟩
  · intro h
    have hnp : ¬ 0 < swarm.length v := by rw [h]; exact lt_irrefl 0
    refine ⟨swarm.unit_of_not_pos v hnp, fun h2 => ?_⟩
    rw [swarm.unit_of_not_pos v hnp, Np.zeros_like, h2]
    rfl

/-- Witness for C4 at the concrete vectors `[3, 4]` (positive length)
and `[0, 0]` (zero length). -/
theorem c4_unit_witness :
    (swarm.unit [3, 4] = Np.divs [3, 4] (swarm.length [3, 4]) ∧
      swarm.length (swarm.unit [3, 4]) = 1) ∧
    swarm.unit [0, 0] = swarm.zero := by
  have h34 : 0 < swarm.length [3, 4] := by
    rw [swarm.length_def, show Np.sumSq [3, 4] = 25 by norm_num [Np.sumSq]]
    exact Real.sqrt_pos.mpr (by norm_num)
  have h00 : swarm.length [0, 0] = 0 := by
    rw [swarm.length_def, show Np.sumSq [0, 0] = 0 by norm_num [Np.sumSq],
      Real.sqrt_zero]
  exact ⟨(c4_unit [3, 4]).1 h34, ((c4_unit [0, 0]).2 h00).2 rfl⟩

/-! ## C7 -/

/-- Computing `orthogonal` when the unit vector is a 2-element list. -/
theorem swarm.orthogonal_two (v : Vec) (p q : ℝ) (h : swarm.unit v = [p, q]) :
    swarm.orthogonal v = [-q, p] := by
  simp [swarm.orthogonal, h, Np.zeros_like, List.set]

/-- C7: for every 2-element vector `v`, `orthogonal v` is `(-uy, ux)`
for `(ux, uy) = unit v`; consequently, for every 2-element unit vector
`u`, `dot u (orthogonal u)` is exactly 0 and `length (orthogonal u)` is
exactly 1 (hence approximately 0 and 1). -/
theorem c7_orthogonal :
    (∀ v : Vec, v.length = 2 →
      swarm.orthogonal v =
        [-(swarm.y (swarm.unit v)), swarm.x (swarm.unit v)]) ∧
    (∀ u : Vec, u.length = 2 → swarm.length u = 1 →
      Np.dot u (swarm.orthogonal u) = 0 ∧
      swarm.length (swarm.orthogonal u) = 1) := by
  constructor
  · intro v hv
    have h2 : (swarm.unit v).length = 2 := by
      by_cases h : 0 < swarm.length v
      · rw [swarm.unit_of_pos v h]; simpa [Np.divs] using hv
      · rw [swarm.unit_of_not_pos v h]; simpa [Np.zeros_like] using hv
    obtain ⟨p, q, hpq⟩ := List.length_eq_two.1 h2
    rw [swarm.orthogonal_two v p q hpq, hpq]
    simp [swarm.x, swarm.y]
  · intro u hu hlen
    obtain ⟨a, b, hab⟩ := List.length_eq_two.1 hu
    subst hab
    have hpos : 0 < swarm.length [a, b] := hlen ▸ one_pos
    have hunit : swarm.unit [a, b] = [a, b] := by
      rw [swarm.unit_of_pos _ hpos, hlen]
      simp [Np.divs]
    have hsq : Np.sumSq [a, b] = 1 := by
      rw [swarm.sumSq_eq_sq_length, hlen, one_pow]
    constructor
    · rw [swarm.orthogonal_two _ a b hunit]
      simp [Np.dot]
      ring
    · rw [swarm.orthogonal_two _ a b hunit, swarm.length_def,
        show Np.sumSq [-b, a] = Np.sumSq [a, b] by
          simp [Np.sumSq]; ring, hsq, Real.sqrt_one]

/-! ## C9 -/

/-- The zero vector normalizes to itself (via the degenerate branch). -/
theorem swarm.unit_zero : swarm.unit swarm.zero = [0, 0] := by
  have h : ¬ 0 < swarm.length swarm.zero := by
    rw [swarm.length_def,
      show Np.sumSq swarm.zero = 0 by norm_num [Np.sumSq, swarm.zero, swarm.arr, Np.zeros],
      Real.sqrt_zero]
    exact lt_irrefl 0
  rw [swarm.unit_of_not_pos _ h]
  rfl

/-- C9: for every 2-element vector `v` — the zero vector included —
`angle v zero` is 90 degrees (π/2 radians): `unit zero = (0, 0)`, the
dot product with it is 0, and `arccos 0 = π/2` is not NaN, so the
degenerate branch is never taken for a zero-vector operand. -/
theorem c9_angle_zero (v : Vec) (hv : v.length = 2) :
    swarm.angle v swarm.zero true = 90 ∧
    swarm.angle v swarm.zero false = Real.pi / 2 := by
  have hdot : Np.dot (swarm.unit v) (swarm.unit swarm.zero) = 0 := by
    rw [swarm.unit_zero]
    have h2 : (swarm.unit v).length = 2 := by rw [swarm.length_unit_eq, hv]
    obtain ⟨p, q, hpq⟩ := List.length_eq_two.1 h2
    rw [hpq]
    simp [Np.dot]
  constructor
  · rw [swarm.angle_eval v swarm.zero true (by rw [hdot]; norm_num)
      (by rw [hdot]; norm_num), if_pos rfl, hdot, Np.degrees_arccos_zero]
  · rw [swarm.angle_eval v swarm.zero false (by rw [hdot]; norm_num)
      (by rw [hdot]; norm_num), hdot, Real.arccos_zero]
    simp

/-- Witness for C9 at the zero vector itself. -/
theorem c9_angle_zero_witness : swarm.angle swarm.zero swarm.zero true = 90 :=
  (c9_angle_zero swarm.zero rfl).1

/-! ## C10 -/

/-- The reference vector `(1, 0)` is its own unit vector. -/
theorem swarm.unit_ref : swarm.unit (swarm.arrp [1, 0]) = [1, 0] := by
  have h1 : swarm.length (swarm.arrp [1, 0]) = 1 := by
    rw [swarm.length_def,
      show Np.sumSq (swarm.arrp [1, 0]) = 1 by norm_num [Np.sumSq, swarm.arrp, swarm.arr],
      Real.sqrt_one]
  rw [swarm.unit_of_pos _ (by rw [h1]; exact one_pos), h1]
  simp [swarm.arrp, swarm.arr, Np.divs]

/-- C10: for every 2-element vector `v`, `heading v` in degrees lies in
the closed interval `[0, 180]` (the range of arccos, converted), so a
heading is never negative and cannot distinguish clockwise from
counterclockwise: `(0, 1)` and `(0, -1)` both have heading 90. -/
theorem c10_heading :
    (∀ v : Vec, v.length = 2 →
      0 ≤ swarm.heading v true ∧ swarm.heading v true ≤ 180) ∧
    swarm.heading (swarm.arrp [0, 1]) true = 90 ∧
    swarm.heading (swarm.arrp [0, -1]) true = 90 := by
  have key : ∀ v : Vec, v.length = 2 →
      Np.dot (swarm.unit v) (swarm.unit (swarm.arrp [1, 0])) = swarm.x (swarm.unit v) ∧
      -1 ≤ swarm.x (swarm.unit v) ∧ swarm.x (swarm.unit v) ≤ 1 := by
    intro v hv
    have h2 : (swarm.unit v).length = 2 := by rw [swarm.length_unit_eq, hv]
    obtain ⟨p, q, hpq⟩ := List.length_eq_two.1 h2
    have hsq : p ^ 2 + q ^ 2 ≤ 1 := by
      have := swarm.sumSq_unit_le_one v
      rw [hpq] at this
      simpa [Np.sumSq] using this
    have hb1 : -1 ≤ p := by nlinarith [sq_nonneg q, sq_nonneg (p + 1)]
    have hb2 : p ≤ 1 := by nlinarith [sq_nonneg q, sq_nonneg (p - 1)]
    rw [swarm.unit_ref, hpq]
    refine ⟨by simp [Np.dot, swarm.x], by simpa [swarm.x] using hb1,
      by simpa [swarm.x] using hb2⟩
  refine ⟨?_, ?_, ?_⟩
  · intro v hv
    obtain ⟨hd, hb1, hb2⟩ := key v hv
    rw [swarm.heading, swarm.angle_eval v (swarm.arrp [1, 0]) true
      (by rw [hd]; exact hb1) (by rw [hd]; exact hb2), if_pos rfl, hd, Np.degrees]
    constructor
    · exact div_nonneg (mul_nonneg (Real.arccos_nonneg _) (by norm_num))
        Real.pi_pos.le
    · rw [div_le_iff₀ Real.pi_pos]
      nlinarith [Real.arccos_le_pi (swarm.x (swarm.unit v)), Real.pi_pos]
  · have hu : swarm.unit (swarm.arrp [0, 1]) = [0, 1] := by
      have h1 : swarm.length (swarm.arrp [0, 1]) = 1 := by
        rw [swarm.length_def,
          show Np.sumSq (swarm.arrp [0, 1]) = 1 by norm_num [Np.sumSq, swarm.arrp, swarm.arr],
          Real.sqrt_one]
      rw [swarm.unit_of_pos _ (by rw [h1]; exact one_pos), h1]
      simp [swarm.arrp, swarm.arr, Np.divs]
    have hdot : Np.dot (swarm.unit (swarm.arrp [0, 1]))
        (swarm.unit (swarm.arrp [1, 0])) = 0 := by
      rw [hu, swarm.unit_ref]; simp [Np.dot]
    rw [swarm.heading, swarm.angle_eval _ _ true (by rw [hdot]; norm_num)
      (by rw [hdot]; norm_num), if_pos rfl, hdot, Np.degrees_arccos_zero]
  · have hu : swarm.unit (swarm.arrp [0, -1]) = [0, -1] := by
      have h1 : swarm.length (swarm.arrp [0, -1]) = 1 := by
        rw [swarm.length_def,
          show Np.sumSq (swarm.arrp [0, -1]) = 1 by norm_num [Np.sumSq, swarm.arrp, swarm.arr],
          Real.sqrt_one]
      rw [swarm.unit_of_pos _ (by rw [h1]; exact one_pos), h1]
      simp [swarm.arrp, swarm.arr, Np.divs]
    have hdot : Np.dot (swarm.unit (swarm.arrp [0, -1]))
        (swarm.unit (swarm.arrp [1, 0])) = 0 := by
      rw [hu, swarm.unit_ref]; simp [Np.dot]
    rw [swarm.heading, swarm.angle_eval _ _ true (by rw [hdot]; norm_num)
      (by rw [hdot]; norm_num), if_pos rfl, hdot, Np.degrees_arccos_zero]

/-- Witness for C10 at the concrete vector `(1, 0)`. -/
theorem c10_heading_witness :
    0 ≤ swarm.heading (swarm.arrp [1, 0]) true ∧
    swarm.heading (swarm.arrp [1, 0]) true ≤ 180 :=
  c10_heading.1 (swarm.arrp [1, 0]) rfl

/-- Witness for C7 at the concrete unit vector `[1, 0]`. -/
theorem c7_orthogonal_witness :
    swarm.orthogonal [1, 0] =
      [-(swarm.y (swarm.unit [1, 0])), swarm.x (swarm.unit [1, 0])] ∧
    Np.dot [1, 0] (swarm.orthogonal [1, 0]) = 0 ∧
    swarm.length (swarm.orthogonal [1, 0]) = 1 := by
  have h1 : swarm.length [1, 0] = 1 := by
    rw [swarm.length_def, show Np.sumSq [1, 0] = 1 by norm_num [Np.sumSq],
      Real.sqrt_one]
  exact ⟨c7_orthogonal.1 [1, 0] rfl, (c7_orthogonal.2 [1, 0] rfl h1).1,
    (c7_orthogonal.2 [1, 0] rfl h1).2⟩

/-! ## C5 -/

/-- C5: `angle` converts to degrees (unless `degrees = false`) the
radian value obtained as follows: when the arccos argument
`dot (unit self) (unit other)` lies in `[-1, 1]` the value is its
arccosine; when it lies outside — the case where `np.arccos` yields
NaN — the value is 0 when the two unit vectors are approximately equal
(`np.allclose`) and π otherwise. -/
theorem c5_angle_nan_policy (u v : Vec) (d : Bool) :
    swarm.angle u v d =
      (let t := Np.dot (swarm.unit u) (swarm.unit v)
       let a :=
         if -1 ≤ t ∧ t ≤ 1 then Real.arccos t
         else if Np.allclose (swarm.unit u) (swarm.unit v) then 0 else Real.pi
       if d then Np.degrees a else a) := by
  by_cases h : -1 ≤ Np.dot (swarm.unit u) (swarm.unit v) ∧
      Np.dot (swarm.unit u) (swarm.unit v) ≤ 1
  · simp [swarm.angle, Np.arccos, h]
  · simp [swarm.angle, Np.arccos, h]

/-! ## C6 -/

/-- C6: `relative_heading` computes `delta = other - self`, then
`arctan2 (-delta.y) delta.x`; a supplied `heading` is added to that
radian angle as-is (regardless of the `degrees` flag) before the
optional degree conversion; with `self = (1,0)`, `other = (1,1)` and no
heading offset the result is -90 degrees. -/
theorem c6_relative_heading :
    (∀ (s o : Vec) (h : Option ℝ) (d : Bool),
      swarm.relative_heading s o h d =
        (let delta := Np.sub o s
         let a := Np.arctan2 (-(swarm.y delta)) (swarm.x delta) +
           (match h with | none => 0 | some t => t)
         if d then Np.degrees a else a)) ∧
    swarm.relative_heading (swarm.arrp [1, 0]) (swarm.arrp [1, 1]) none true
      = -90 := by
  constructor
  · intro s o h d
    cases h <;> simp [swarm.relative_heading]
  · have hd : Np.sub (swarm.arrp [1, 1]) (swarm.arrp [1, 0]) = [0, 1] := by
      show Np.sub [1, 1] [1, 0] = [0, 1]
      norm_num [Np.sub]
    have ha : Np.arctan2 (-1 : ℝ) 0 = -(Real.pi / 2) := by
      rw [Np.arctan2]
      norm_num
    simp only [swarm.relative_heading, hd]
    norm_num [swarm.x, swarm.y, ha, Np.degrees]
    field_simp
    ring

/-! ## C8 -/

/-- C8: vector equality `==` holds iff every pair of corresponding
components is numerically close within numpy's default tolerance
(`|a - b| ≤ 1e-8 + 1e-5·|b|`, not exact bitwise equality), `!=` is the
strict logical negation of `==`, `(1,1) == (1.0000000001, 1.0)`, and
`(1,1) != (2,2)`. -/
theorem c8_equality :
    (∀ a b : Vec, swarm.eq a b ↔
      List.Forall₂ (fun s t => |s - t| ≤ 1e-8 + 1e-5 * |t|) a b) ∧
    (∀ a b : Vec, swarm.ne a b ↔ ¬ swarm.eq a b) ∧
    swarm.eq (swarm.arrp [1, 1]) (swarm.arrp [1.0000000001, 1.0]) ∧
    swarm.ne (swarm.arrp [1, 1]) (swarm.arrp [2, 2]) := by
  refine ⟨fun a b => Iff.rfl, fun a b => Iff.rfl, ?_, ?_⟩
  · show List.Forall₂ Np.isclose [1, 1] [1.0000000001, 1.0]
    refine List.Forall₂.cons ?_ (List.Forall₂.cons ?_ List.Forall₂.nil)
    · rw [Np.isclose, abs_of_nonpos (by norm_num), abs_of_nonneg (by norm_num)]
      norm_num
    · rw [Np.isclose, abs_of_nonneg (by norm_num), abs_of_nonneg (by norm_num)]
      norm_num
  · intro h
    have h1 : Np.isclose 1 2 := by
      cases h with | cons h1 _ => exact h1
    rw [Np.isclose, abs_of_nonpos (by norm_num), abs_of_nonneg (by norm_num)]
      at h1
    norm_num at h1

/-! ## C3 -/

/-- On a positive-length vector, `sarsim.unit` divides componentwise. -/
theorem sarsim.unit_div_of_pos (v : Vec) (h : 0 < sarsim.length v) :
    sarsim.unit v = Np.divs v (sarsim.length v) := by
  simp [sarsim.unit, h]

/-- When the dot product of the two unit vectors lies in `[-1, 1]`,
`sarsim.angle` is the (possibly degree-converted) arccosine of it. -/
theorem sarsim.angle_arccos (self other : Vec) (d : Bool)
    (h1 : -1 ≤ Np.dot (sarsim.unit self) (sarsim.unit other))
    (h2 : Np.dot (sarsim.unit self) (sarsim.unit other) ≤ 1) :
    sarsim.angle self other d =
      if d then
        Np.degrees (Real.arccos (Np.dot (sarsim.unit self) (sarsim.unit other)))
      else Real.arccos (Np.dot (sarsim.unit self) (sarsim.unit other)) := by
  simp [sarsim.angle, Np.arccos, h1, h2]

/-- For 2-element vectors the arccos argument of `angle` always lies in
`[-1, 1]` (Cauchy–Schwarz on the unit vectors), so the NaN branch is
unreachable over the reals. -/
theorem swarm.dot_unit_bound (u v : Vec) (hu : u.length = 2) (hv : v.length = 2) :
    -1 ≤ Np.dot (swarm.unit u) (swarm.unit v) ∧
    Np.dot (swarm.unit u) (swarm.unit v) ≤ 1 := by
  have h2u : (swarm.unit u).length = 2 := by rw [swarm.length_unit_eq, hu]
  have h2v : (swarm.unit v).length = 2 := by rw [swarm.length_unit_eq, hv]
  obtain ⟨p, q, hp⟩ := List.length_eq_two.1 h2u
  obtain ⟨r, s, hr⟩ := List.length_eq_two.1 h2v
  have hA : p ^ 2 + q ^ 2 ≤ 1 := by
    have := swarm.sumSq_unit_le_one u
    rw [hp] at this
    simpa [Np.sumSq] using this
  have hB : r ^ 2 + s ^ 2 ≤ 1 := by
    have := swarm.sumSq_unit_le_one v
    rw [hr] at this
    simpa [Np.sumSq] using this
  have ht : (p * r + q * s) ^ 2 ≤ 1 := by
    nlinarith [sq_nonneg (p * s - q * r), sq_nonneg p, sq_nonneg q,
      sq_nonneg r, sq_nonneg s]
  rw [hp, hr]
  constructor
  · simp only [Np.dot, List.zipWith, List.sum_cons, List.sum_nil, add_zero]
    nlinarith [sq_nonneg (p * r + q * s + 1)]
  · simp only [Np.dot, List.zipWith, List.sum_cons, List.sum_nil, add_zero]
    nlinarith [sq_nonneg (p * r + q * s - 1)]

/-- C3: on the shared surface the two copies agree: `zero`, `arr`,
`arrp`, `length`, `unit`, `orthogonal` and `distance` are the same
functions, and `angle` agrees on all 2-element inputs — the only
textual difference between the two `angle`s is the unit-vector
comparison inside the NaN branch, which is unreachable there. -/
theorem c3_equivalence :
    sarsim.zero = swarm.zero ∧
    (∀ a : Vec, sarsim.arr a = swarm.arr a) ∧
    (∀ a : Vec, sarsim.arrp a = swarm.arrp a) ∧
    (∀ v : Vec, sarsim.length v = swarm.length v) ∧
    (∀ v : Vec, sarsim.unit v = swarm.unit v) ∧
    (∀ v : Vec, sarsim.orthogonal v = swarm.orthogonal v) ∧
    (∀ u v : Vec, sarsim.distance u v = swarm.distance u v) ∧
    (∀ u v : Vec, u.length = 2 → v.length = 2 → ∀ d : Bool,
      sarsim.angle u v d = swarm.angle u v d) := by
  refine ⟨rfl, fun a => rfl, fun a => rfl, fun v => rfl, fun v => rfl,
    fun v => rfl, fun u v => rfl, ?_⟩
  intro u v hu hv d
  obtain ⟨h1, h2⟩ := swarm.dot_unit_bound u v hu hv
  rw [sarsim.angle_arccos u v d h1 h2, swarm.angle_eval u v d h1 h2]
  rfl

/-- Witness for C3 at the source's own demo vectors `(2,4)` and `(0,1)`. -/
theorem c3_equivalence_witness :
    sarsim.angle [2, 4] [0, 1] true = swarm.angle [2, 4] [0, 1] true :=
  c3_equivalence.2.2.2.2.2.2.2 [2, 4] [0, 1] rfl rfl true
